import Mathlib

set_option autoImplicit false
set_option linter.unusedVariables false

/-!
Shallow embedding of the oidc-agent encrypted-configuration file store
(src/file_io.c, src/utils/file_io/oidc_file_io.c,
src/utils/file_io/promptCryptFileUtils.c).

C strings are modelled as NUL-free byte sequences of type List Char.
Filesystem state and collaborator outcomes (prompt, encryption, stat,
readdir) are passed explicitly as parameters, so every definition is an
executable function of its inputs.
-/

/-- The literal suffix ".clientconfig" used by isClientConfigFile. -/
def clientConfigSuffix : List Char := ".clientconfig".data

/-- The reserved literal suffix ".config" used by isAccountConfigFile. -/
def configSuffix : List Char := ".config".data

/-- Modelled from the spec: the string utility strEnds (not under src) tests
whether the first string ends with the literal second string. -/
def strEnds (s suf : List Char) : Bool := List.isSuffixOf suf s

/-- The scanning behaviour of C strstr, returning the remainder of s after
the first occurrence of pat, or none when pat does not occur in s. -/
def strstrRest (pat : List Char) : List Char → Option (List Char)
  | [] => if List.isPrefixOf pat ([] : List Char) then some [] else none
  | c :: t =>
    if List.isPrefixOf pat (c :: t) then some ((c :: t).drop pat.length)
    else strstrRest pat t

/-- isClientConfigFile from src/src/utils/file_io/oidc_file_io.c: true when
the filename ends with ".clientconfig", or when the first strstr occurrence
of ".clientconfig" is followed only by decimal digits until the end of the
string. -/
def isClientConfigFile (filename : List Char) : Bool :=
  if strEnds filename clientConfigSuffix then true
  else
    match strstrRest clientConfigSuffix filename with
    | some rest => rest.all Char.isDigit
    | none => false

/-- isAccountConfigFile from src/src/utils/file_io/oidc_file_io.c: a file is
an account config when it is not a client config and does not end in the
reserved ".config" suffix. -/
def isAccountConfigFile (filename : List Char) : Bool :=
  if isClientConfigFile filename then false
  else if strEnds filename configSuffix then false
  else true

/-- The claim's reading of the classifier (existential form): the name ends
with ".clientconfig", or SOME occurrence of ".clientconfig" is followed only
by decimal digits until end-of-string. -/
def specClientConfigAnyOccurrence (s : List Char) : Bool :=
  strEnds s clientConfigSuffix ||
  (List.range (s.length + 1)).any (fun i =>
    List.isPrefixOf clientConfigSuffix (s.drop i) &&
    ((s.drop i).drop clientConfigSuffix.length).all Char.isDigit)

/-- Remainder of s after the first index at which pat occurs, stated via
List.find? over all indices in increasing order. -/
def firstOccurrenceRest (pat s : List Char) : Option (List Char) :=
  ((List.range (s.length + 1)).find? (fun i => List.isPrefixOf pat (s.drop i))).map
    (fun i => s.drop (i + pat.length))

/-- The amended claim's classifier: the name ends with ".clientconfig", or
the FIRST occurrence of ".clientconfig" is followed only by decimal digits
until end-of-string. -/
def specClientConfigFirstOccurrence (s : List Char) : Bool :=
  strEnds s clientConfigSuffix ||
  (match firstOccurrenceRest clientConfigSuffix s with
   | some rest => rest.all Char.isDigit
   | none => false)

/-- Dropping a head that the pattern does not match leaves the first
occurrence unchanged. -/
theorem firstOccurrenceRest_cons_of_neg (pat : List Char) (c : Char) (t : List Char)
    (h : ¬ List.isPrefixOf pat (c :: t) = true) :
    firstOccurrenceRest pat (c :: t) = firstOccurrenceRest pat t := by
  unfold firstOccurrenceRest
  rw [List.length_cons, List.range_succ_eq_map,
    List.find?_cons_of_neg _ (by simpa using h), List.find?_map]
  simp only [Function.comp_def, Option.map_map, Nat.succ_eq_add_one,
    List.drop_succ_cons, Nat.succ_add, Nat.add_right_comm]

/-- The strstr loop finds exactly the first occurrence in index order. -/
theorem strstrRest_eq_firstOccurrenceRest (pat s : List Char) :
    strstrRest pat s = firstOccurrenceRest pat s := by
  induction s with
  | nil =>
    by_cases h : List.isPrefixOf pat ([] : List Char) <;>
      simp [strstrRest, firstOccurrenceRest, List.range_succ, h]
  | cons c t ih =>
    by_cases h : List.isPrefixOf pat (c :: t)
    · simp [strstrRest, h, firstOccurrenceRest, List.range_succ_eq_map,
        List.find?_cons_of_pos, List.drop_zero]
    · rw [strstrRest, if_neg h, ih, firstOccurrenceRest_cons_of_neg pat c t h]

/-- Modelled from the spec: ISSUER_CONFIG_FILENAME (defines/settings.h is not
under src), the fixed name of the issuer/global config marker file; the spec
only requires that the name ends in the reserved ".config" suffix. -/
def issuerConfigFilename : List Char := "issuer.config".data

/-- Claim C1 (counterexample): at a name whose first ".clientconfig"
occurrence is followed by a non-digit but whose second occurrence is followed
only by digits, the code answers false while the claim's contains-condition
holds, so the claimed equivalence fails. -/
theorem clientconfig_any_occurrence_counterexample :
    isClientConfigFile "a.clientconfigx.clientconfig3".data = false ∧
    specClientConfigAnyOccurrence "a.clientconfigx.clientconfig3".data = true := by
  exact ⟨by decide, by decide⟩

/-- Claim C1 (amended): isClientConfigFile answers true exactly when the name
ends with ".clientconfig" or the FIRST occurrence of ".clientconfig" found by
substring search is followed only by decimal digits until end-of-string; the
five example inputs of the claim evaluate as stated. -/
theorem clientconfig_classifier_amended :
    (∀ s : List Char, isClientConfigFile s = specClientConfigFirstOccurrence s)
    ∧ isClientConfigFile "a.clientconfig".data = true
    ∧ isClientConfigFile "a.clientconfig3".data = true
    ∧ isClientConfigFile "a.clientconfig03".data = true
    ∧ isClientConfigFile "a.clientconfigX".data = false
    ∧ isClientConfigFile "a.clientconfigx3".data = false := by
  refine ⟨?_, by decide, by decide, by decide, by decide, by decide⟩
  intro s
  unfold isClientConfigFile specClientConfigFirstOccurrence
  rw [strstrRest_eq_firstOccurrenceRest]
  cases hE : strEnds s clientConfigSuffix <;> simp [hE]

/-- Claim C2: isAccountConfigFile is exactly the conjunction of not being a
client config and not ending in ".config"; the two categories are disjoint,
and the reserved issuer marker file falls in neither category. -/
theorem account_config_disjoint_from_client_config :
    (∀ f : List Char,
      isAccountConfigFile f = (!isClientConfigFile f && !strEnds f configSuffix))
    ∧ (∀ f : List Char, (isAccountConfigFile f && isClientConfigFile f) = false)
    ∧ isAccountConfigFile issuerConfigFilename = false
    ∧ isClientConfigFile issuerConfigFilename = false := by
  refine ⟨?_, ?_, by decide, by decide⟩
  · intro f
    unfold isAccountConfigFile
    cases hc : isClientConfigFile f <;> cases he : strEnds f configSuffix <;>
      simp [hc, he]
  · intro f
    unfold isAccountConfigFile
    cases hc : isClientConfigFile f <;> simp [hc]

/-- The fixed candidate-location table of oidc_file_io.c, in priority order;
each entry starts with a tilde that the code skips when expanding. -/
def possibleLocations : List (List Char) :=
  ["~/.config/oidc-agent/".data, "~/.oidc-agent/".data]

/-- The candidate loop of getOidcDir: expand each location against the home
directory (skipping the leading tilde) and return the first expanded path
that exists as a directory according to dirEx (the dirExists collaborator,
whose int result is checked with a strict greater-than-zero test). -/
def firstExistingDir (home : List Char) (dirEx : List Char → Int) :
    List (List Char) → Option (List Char)
  | [] => none
  | loc :: rest =>
    let path := home ++ loc.drop 1
    if dirEx path > 0 then some path else firstExistingDir home dirEx rest

/-- getOidcDir from src/src/utils/file_io/oidc_file_io.c. -/
def getOidcDir (home : List Char) (dirEx : List Char → Int) : Option (List Char) :=
  firstExistingDir home dirEx possibleLocations

/-- Claim C6: getOidcDir tries the nested XDG-style location before the
legacy dotted location, expands each against the home directory, returns the
first that exists as a directory, and returns none when neither exists. -/
theorem oidc_dir_resolution_priority :
    ∀ (home : List Char) (dirEx : List Char → Int),
      getOidcDir home dirEx =
        (if dirEx (home ++ "/.config/oidc-agent/".data) > 0 then
          some (home ++ "/.config/oidc-agent/".data)
        else if dirEx (home ++ "/.oidc-agent/".data) > 0 then
          some (home ++ "/.oidc-agent/".data)
        else none) := by
  intro home dirEx
  have h1 : List.drop 1 "~/.config/oidc-agent/".data = "/.config/oidc-agent/".data := rfl
  have h2 : List.drop 1 "~/.oidc-agent/".data = "/.oidc-agent/".data := rfl
  simp only [getOidcDir, possibleLocations, firstExistingDir, h1, h2]

/-- Modelled from the spec: the oidc_error_t outcomes this core distinguishes
(spec section 7 error kinds, plus success); oidc_errno values themselves are
not under src. -/
inductive OidcErr where
  | success
  | argNullFunc
  | promptCancelled
  | ioError
  | dirError
  | eerror
  | wrongPassword
deriving DecidableEq

/-- A filesystem snapshot: the set of existing directories and a map from
file paths to file contents. -/
structure FS where
  dirs : List (List Char)
  files : List (List Char × List Char)

/-- Directory existence against an FS snapshot (the positive branch of the
dirExists collaborator). -/
def dirExistsFS (fs : FS) (p : List Char) : Bool := decide (p ∈ fs.dirs)

/-- Create or truncate the file at path p with content c. -/
def setFile : List (List Char × List Char) → List Char → List Char →
    List (List Char × List Char)
  | [], p, c => [(p, c)]
  | (q, d) :: rest, p, c =>
    if q = p then (p, c) :: rest else (q, d) :: setFile rest p c

/-- Content of the file at path p, if present. -/
def lookupFile : List (List Char × List Char) → List Char → Option (List Char)
  | [], _ => none
  | (q, d) :: rest, p => if q = p then some d else lookupFile rest p

/-- Writing a file and reading it back at the same path yields the written
content. -/
theorem lookupFile_setFile (files : List (List Char × List Char))
    (p c : List Char) : lookupFile (setFile files p c) p = some c := by
  induction files with
  | nil => simp [setFile, lookupFile]
  | cons hd rest ih =>
    obtain ⟨q, d⟩ := hd
    by_cases h : q = p <;> simp [setFile, lookupFile, h, ih]

/-- createOidcDir from src/src/utils/file_io/oidc_file_io.c: choose the
nested location when the parent "~/.config" exists and the legacy dotted
location otherwise, create that directory, then create (truncating if
present) the issuer marker file inside it. The createDir collaborator and
the open call with O_CREAT and O_TRUNC are not under src and are modelled
from the spec: createDir's outcome is the createDirResult parameter and on
success the directory is recorded; the open call truncates the marker to a
zero-length file when its directory exists. -/
def createOidcDir (home : List Char) (createDirResult : OidcErr) (fs : FS) :
    OidcErr × FS :=
  let configPath := home ++ "/.config".data
  let oidcdir :=
    if dirExistsFS fs configPath then home ++ "/.config/oidc-agent/".data
    else home ++ "/.oidc-agent/".data
  let fs1 :=
    if createDirResult = OidcErr.success then
      { fs with dirs := oidcdir :: fs.dirs }
    else fs
  let markerPath := oidcdir ++ "/".data ++ issuerConfigFilename
  let fs2 :=
    if dirExistsFS fs1 oidcdir then
      { fs1 with files := setFile fs1.files markerPath [] }
    else fs1
  (createDirResult, fs2)

/-- Claim C7: after a successful createOidcDir the deterministically chosen
target directory (nested under "~/.config" when that parent exists, the
legacy dotted directory otherwise) has been created, and the fixed-name
issuer marker file inside it exists with zero-length (empty) content, also
when a file of that name existed before. -/
theorem create_oidc_dir_creates_marker :
    ∀ (home : List Char) (fs : FS),
      (createOidcDir home OidcErr.success fs).1 = OidcErr.success
      ∧ (createOidcDir home OidcErr.success fs).2.dirs =
          (if dirExistsFS fs (home ++ "/.config".data) then
            home ++ "/.config/oidc-agent/".data
          else home ++ "/.oidc-agent/".data) :: fs.dirs
      ∧ lookupFile (createOidcDir home OidcErr.success fs).2.files
          ((if dirExistsFS fs (home ++ "/.config".data) then
            home ++ "/.config/oidc-agent/".data
          else home ++ "/.oidc-agent/".data) ++ "/".data ++ issuerConfigFilename) =
          some [] := by
  intro home fs
  by_cases h : dirExistsFS fs (home ++ "/.config".data) <;>
    simp [createOidcDir, h, dirExistsFS, lookupFile_setFile]

/-- The outcome of a call into the legacy file primitives of src/src/file_io.c:
either the function returns a value to its caller, or the process is
terminated by exit(EXIT_FAILURE). -/
inductive ProcResult (α : Type) where
  | ret (a : α)
  | exited
deriving DecidableEq

namespace Legacy

/-- readFile from src/src/file_io.c, parameterised by the collaborator
outcomes: fopen (none when opening fails, otherwise the file content),
calloc success, and fread success. An fopen failure returns NULL to the
caller; an allocation or read failure terminates the process. -/
def readFile (fopenResult : Option (List Char)) (allocOk readOk : Bool) :
    ProcResult (Option (List Char)) :=
  match fopenResult with
  | none => ProcResult.ret none
  | some content =>
    if allocOk = false then ProcResult.exited
    else if readOk = false then ProcResult.exited
    else ProcResult.ret (some content)

/-- writeFile from src/src/file_io.c: an fopen failure terminates the
process, otherwise the text is written and the function returns. -/
def writeFile (fopenOk : Bool) (text : List Char) (fs : FS) (path : List Char) :
    ProcResult FS :=
  if fopenOk then ProcResult.ret { fs with files := setFile fs.files path text }
  else ProcResult.exited

/-- The three opendir outcomes distinguished by dirExists. -/
inductive OpendirResult where
  | opened
  | enoent
  | otherError
deriving DecidableEq

/-- dirExists from src/src/file_io.c: returns 1 when the directory opens,
0 when errno is ENOENT, and terminates the process on any other opendir
failure (the return -1 after exit is unreachable). -/
def dirExists (r : OpendirResult) : ProcResult Int :=
  match r with
  | OpendirResult.opened => ProcResult.ret 1
  | OpendirResult.enoent => ProcResult.ret 0
  | OpendirResult.otherError => ProcResult.exited

end Legacy

/-- Claim C5 (code bug): the legacy primitives terminate the process instead
of returning an error outcome: writeFile exits when fopen fails, readFile
exits when allocation or the read fails (only an fopen failure is returned
as NULL), and dirExists exits on a non-ENOENT opendir failure. -/
theorem legacy_file_ops_exit_on_failure :
    Legacy.writeFile false "text".data ⟨[], []⟩ "/nonexistent/f".data =
      ProcResult.exited
    ∧ Legacy.readFile (some "content".data) false true = ProcResult.exited
    ∧ Legacy.readFile (some "content".data) true false = ProcResult.exited
    ∧ Legacy.dirExists Legacy.OpendirResult.otherError = ProcResult.exited
    ∧ Legacy.readFile none true true = ProcResult.ret none := by
  exact ⟨rfl, rfl, rfl, rfl, rfl⟩

/-- The dirent self pseudo-entry ".". -/
def dotEntry : List Char := ".".data

/-- The dirent parent pseudo-entry "..". -/
def dotdotEntry : List Char := "..".data

/-- The readdir loop of getFileListForDirIf: skip the self and parent
pseudo-entries and keep, in enumeration order, the names accepted by the
match predicate. -/
def dirListLoop (matchFn : List Char → Bool) : List (List Char) → List (List Char)
  | [] => []
  | ent :: rest =>
    if ent ≠ dotEntry ∧ ent ≠ dotdotEntry then
      if matchFn ent then ent :: dirListLoop matchFn rest
      else dirListLoop matchFn rest
    else dirListLoop matchFn rest

/-- getFileListForDirIf from src/src/utils/file_io/oidc_file_io.c,
parameterised by the opendir outcome: none models an opendir failure, where
the code sets oidc_errno and returns the NULL list; some es models the
sequence of regular-file names delivered by readdir. -/
def getFileListForDirIf (entries : Option (List (List Char)))
    (matchFn : List Char → Bool) : Option (List (List Char)) :=
  match entries with
  | none => none
  | some es => some (dirListLoop matchFn es)

/-- Outcome of the two config listing functions: a listing, the NULL-list
error outcome of a failed opendir, or undefined behaviour. -/
inductive ListOutcome where
  | ok (l : List (List Char))
  | errorNull
  | undefined
deriving DecidableEq

/-- getAccountConfigFileList from src/src/utils/file_io/oidc_file_io.c:
the listing filtered by isAccountConfigFile, returned as bare filenames;
the NULL result of a failed opendir is passed through unchanged. -/
def getAccountConfigFileList (entries : Option (List (List Char))) : ListOutcome :=
  match getFileListForDirIf entries isAccountConfigFile with
  | some l => ListOutcome.ok l
  | none => ListOutcome.errorNull

/-- getClientConfigFileList from src/src/utils/file_io/oidc_file_io.c:
the listing filtered by isClientConfigFile, with every entry rewritten into
the oidcDir-qualified full path. The code builds a list iterator over the
listing without a NULL check, so when opendir failed the NULL list is
dereferenced and the function has no defined result; that case is modelled
as the undefined outcome. -/
def getClientConfigFileList (oidcDir : List Char)
    (entries : Option (List (List Char))) : ListOutcome :=
  match getFileListForDirIf entries isClientConfigFile with
  | some l => ListOutcome.ok (l.map (fun n => oidcDir ++ n))
  | none => ListOutcome.undefined

/-- The readdir loop computes a filter over the enumerated names. -/
theorem dirListLoop_eq_filter (matchFn : List Char → Bool) (es : List (List Char)) :
    dirListLoop matchFn es =
      es.filter (fun n =>
        !decide (n = dotEntry) && (!decide (n = dotdotEntry) && matchFn n)) := by
  induction es with
  | nil => simp [dirListLoop]
  | cons ent rest ih =>
    by_cases h1 : ent = dotEntry
    · simp [dirListLoop, h1, ih, List.filter]
    · by_cases h2 : ent = dotdotEntry
      · simp [dirListLoop, h1, h2, ih, List.filter]
      · cases hm : matchFn ent <;>
          simp [dirListLoop, h1, h2, hm, ih, List.filter]

/-- Claim C8: on a readable directory the account listing is the bare
filenames accepted by isAccountConfigFile in enumeration order, the client
listing rewrites every accepted name into a directory-qualified full path,
an empty directory yields two empty listings without error, and the reserved
issuer marker file appears in neither listing. -/
theorem config_listings_shapes :
    ∀ (dir : List Char) (es : List (List Char)),
      getAccountConfigFileList (some es) =
        ListOutcome.ok (es.filter (fun n =>
          !decide (n = dotEntry) && (!decide (n = dotdotEntry) && isAccountConfigFile n)))
      ∧ getClientConfigFileList dir (some es) =
        ListOutcome.ok ((es.filter (fun n =>
          !decide (n = dotEntry) && (!decide (n = dotdotEntry) && isClientConfigFile n))).map
            (fun n => dir ++ n))
      ∧ getAccountConfigFileList (some []) = ListOutcome.ok []
      ∧ getClientConfigFileList dir (some []) = ListOutcome.ok []
      ∧ decide (issuerConfigFilename ∈ dirListLoop isAccountConfigFile es) = false
      ∧ decide ((dir ++ issuerConfigFilename) ∈
          (dirListLoop isClientConfigFile es).map (fun n => dir ++ n)) = false := by
  intro dir es
  refine ⟨?_, ?_, rfl, rfl, ?_, ?_⟩
  · simp [getAccountConfigFileList, getFileListForDirIf, dirListLoop_eq_filter]
  · simp [getClientConfigFileList, getFileListForDirIf, dirListLoop_eq_filter]
  · have hA : isAccountConfigFile issuerConfigFilename = false := by decide
    simp [dirListLoop_eq_filter, List.mem_filter, hA]
  · have hC : isClientConfigFile issuerConfigFilename = false := by decide
    simp only [decide_eq_false_iff_not, dirListLoop_eq_filter, List.mem_map,
      List.mem_filter]
    rintro ⟨n, ⟨_, hp⟩, heq⟩
    have hn : n = issuerConfigFilename := List.append_cancel_left heq
    subst hn
    simp [hC] at hp

/-- Claim C10: when the underlying lister reports a directory-open failure
as the NULL listing, getAccountConfigFileList passes the error outcome
through unchanged, while getClientConfigFileList iterates the NULL listing
and therefore has no defined error result. -/
theorem client_config_list_error_asymmetry :
    ∀ dir : List Char,
      getClientConfigFileList dir none = ListOutcome.undefined
      ∧ getAccountConfigFileList none = ListOutcome.errorNull := by
  intro dir
  exact ⟨rfl, rfl⟩

/-- The libc strcmp used by compareFilesByName, modelled as the common
byte-difference implementation: zero for equal strings, otherwise the
difference of the first differing bytes, where the terminating NUL (value 0)
decides when one string is a proper prefix of the other. The C standard
guarantees only the sign of the result. -/
def strcmp : List Char → List Char → Int
  | [], [] => 0
  | [], b :: _ => -(b.toNat : Int)
  | a :: _, [] => (a.toNat : Int)
  | a :: s, b :: t => if a = b then strcmp s t else (a.toNat : Int) - (b.toNat : Int)

/-- compareFilesByName from src/src/utils/file_io/oidc_file_io.c: the raw
strcmp of the two bare names. -/
def compareFilesByName (filename1 filename2 : List Char) : Int :=
  strcmp filename1 filename2

/-- compareOidcFilesByDateModified from src/src/utils/file_io/oidc_file_io.c.
The stat collaborator is modelled by the mtimeOf oracle giving each full
path its st_mtime value; a failed stat leaves the secAlloc-zeroed struct, so
the oracle yields 0 for such paths. The two sequential if statements of the
source are kept. -/
def compareOidcFilesByDateModified (mtimeOf : List Char → Int)
    (oidcDir filename1 filename2 : List Char) : Int :=
  let m1 := mtimeOf (oidcDir ++ filename1)
  let m2 := mtimeOf (oidcDir ++ filename2)
  let ret : Int := 0
  let ret := if m1 < m2 then -1 else ret
  let ret := if m1 > m2 then 1 else ret
  ret

/-- compareOidcFilesByDateAccessed from src/src/utils/file_io/oidc_file_io.c,
identical to the modified-time comparator but reading st_atime. -/
def compareOidcFilesByDateAccessed (atimeOf : List Char → Int)
    (oidcDir filename1 filename2 : List Char) : Int :=
  let a1 := atimeOf (oidcDir ++ filename1)
  let a2 := atimeOf (oidcDir ++ filename2)
  let ret : Int := 0
  let ret := if a1 < a2 then -1 else ret
  let ret := if a1 > a2 then 1 else ret
  ret

/-- Byte-wise lexical strictly-less on NUL-terminated strings: a proper
prefix is smaller, otherwise the first differing byte decides. -/
def lexLt : List Char → List Char → Bool
  | [], [] => false
  | [], _ :: _ => true
  | _ :: _, [] => false
  | a :: s, b :: t => if a = b then lexLt s t else decide (a.toNat < b.toNat)

/-- Two characters with the same code point are equal. -/
theorem charToNat_injective (a b : Char) (h : a.toNat = b.toNat) : a = b := by
  have h2 := congrArg Char.ofNat h
  simpa [Char.ofNat_toNat] using h2

/-- strcmp is zero exactly on equal NUL-free strings. -/
theorem strcmp_eq_zero_iff (s : List Char) :
    ∀ t : List Char, (∀ c ∈ s, 0 < c.toNat) → (∀ c ∈ t, 0 < c.toNat) →
      (strcmp s t = 0 ↔ s = t) := by
  induction s with
  | nil =>
    intro t _ ht
    cases t with
    | nil => simp [strcmp]
    | cons b tb =>
      have hb : 0 < b.toNat := ht b (by simp)
      simp only [strcmp]
      constructor
      · intro h
        omega
      · intro h
        simp at h
  | cons a sa ih =>
    intro t hs ht
    cases t with
    | nil =>
      have ha : 0 < a.toNat := hs a (by simp)
      simp only [strcmp]
      constructor
      · intro h
        omega
      · intro h
        simp at h
    | cons b tb =>
      by_cases hab : a = b
      · subst hab
        have hrec := ih tb (fun c hc => hs c (by simp [hc]))
          (fun c hc => ht c (by simp [hc]))
        simp [strcmp, hrec]
      · have hne : a.toNat ≠ b.toNat := fun h => hab (charToNat_injective a b h)
        simp only [strcmp, if_neg hab]
        constructor
        · intro h
          omega
        · intro h
          simp only [List.cons.injEq] at h
          exact absurd h.1 hab

/-- strcmp is negative exactly when the first NUL-free string is lexically
smaller byte-wise. -/
theorem strcmp_neg_iff (s : List Char) :
    ∀ t : List Char, (∀ c ∈ s, 0 < c.toNat) → (∀ c ∈ t, 0 < c.toNat) →
      (strcmp s t < 0 ↔ lexLt s t = true) := by
  induction s with
  | nil =>
    intro t _ ht
    cases t with
    | nil => simp [strcmp, lexLt]
    | cons b tb =>
      have hb : 0 < b.toNat := ht b (by simp)
      simp only [strcmp]
      constructor
      · intro h
        rfl
      · intro h
        omega
  | cons a sa ih =>
    intro t hs ht
    cases t with
    | nil =>
      simp only [strcmp]
      constructor
      · intro h
        exact absurd h (by omega)
      · intro h
        simp [lexLt] at h
    | cons b tb =>
      by_cases hab : a = b
      · subst hab
        have hrec := ih tb (fun c hc => hs c (by simp [hc]))
          (fun c hc => ht c (by simp [hc]))
        simp [strcmp, lexLt, hrec]
      · have hne : a.toNat ≠ b.toNat := fun h => hab (charToNat_injective a b h)
        simp only [strcmp, lexLt, if_neg hab]
        rcases Nat.lt_trichotomy a.toNat b.toNat with h | h | h
        · have hlt : (a.toNat : Int) - b.toNat < 0 := by omega
          simp [h, hlt]
        · exact absurd h hne
        · have hge : ¬ (a.toNat : Int) - b.toNat < 0 := by omega
          have hnlt : ¬ a.toNat < b.toNat := by omega
          simp [hge, hnlt]

/-- Swapping strcmp's arguments negates the result. -/
theorem strcmp_antisymm (s : List Char) :
    ∀ t : List Char, strcmp t s = -strcmp s t := by
  induction s with
  | nil =>
    intro t
    cases t with
    | nil => simp [strcmp]
    | cons b tb => simp [strcmp]
  | cons a sa ih =>
    intro t
    cases t with
    | nil => simp [strcmp]
    | cons b tb =>
      by_cases hab : a = b
      · subst hab
        simp [strcmp, ih]
      · simp only [strcmp, if_neg hab, if_neg (Ne.symm hab)]
        omega

/-- Claim C9 (counterexample): compareFilesByName returns the raw strcmp
byte difference, which already at the one-character names "c" and "a" is 2
and so lies outside the claimed range of -1, 0, 1. -/
theorem compare_by_name_range_counterexample :
    compareFilesByName "c".data "a".data = 2
    ∧ ¬(compareFilesByName "c".data "a".data = -1
        ∨ compareFilesByName "c".data "a".data = 0
        ∨ compareFilesByName "c".data "a".data = 1) := by
  exact ⟨by decide, by decide⟩

/-- Claim C9 (amended): the two timestamp comparators always return -1, 0 or
1, while compareFilesByName returns the raw strcmp value, whose sign (not
its magnitude) is the lexical byte-wise comparison of the two NUL-free bare
names: zero exactly on equal names, negative exactly when the first name is
lexically smaller, positive exactly when the second is. -/
theorem comparators_amended :
    (∀ (mtimeOf : List Char → Int) (dir f1 f2 : List Char),
        compareOidcFilesByDateModified mtimeOf dir f1 f2 = -1
        ∨ compareOidcFilesByDateModified mtimeOf dir f1 f2 = 0
        ∨ compareOidcFilesByDateModified mtimeOf dir f1 f2 = 1)
    ∧ (∀ (atimeOf : List Char → Int) (dir f1 f2 : List Char),
        compareOidcFilesByDateAccessed atimeOf dir f1 f2 = -1
        ∨ compareOidcFilesByDateAccessed atimeOf dir f1 f2 = 0
        ∨ compareOidcFilesByDateAccessed atimeOf dir f1 f2 = 1)
    ∧ (∀ f1 f2 : List Char, (∀ c ∈ f1, 0 < c.toNat) → (∀ c ∈ f2, 0 < c.toNat) →
        ((compareFilesByName f1 f2 = 0 ↔ f1 = f2)
         ∧ (compareFilesByName f1 f2 < 0 ↔ lexLt f1 f2 = true)
         ∧ (0 < compareFilesByName f1 f2 ↔ lexLt f2 f1 = true))) := by
  refine ⟨?_, ?_, ?_⟩
  · intro mtimeOf dir f1 f2
    unfold compareOidcFilesByDateModified
    rcases lt_trichotomy (mtimeOf (dir ++ f1)) (mtimeOf (dir ++ f2)) with h | h | h <;>
      simp [h, gt_iff_lt, not_lt_of_gt, lt_asymm]
  · intro atimeOf dir f1 f2
    unfold compareOidcFilesByDateAccessed
    rcases lt_trichotomy (atimeOf (dir ++ f1)) (atimeOf (dir ++ f2)) with h | h | h <;>
      simp [h, gt_iff_lt, not_lt_of_gt, lt_asymm]
  · intro f1 f2 h1 h2
    refine ⟨strcmp_eq_zero_iff f1 f2 h1 h2, strcmp_neg_iff f1 f2 h1 h2, ?_⟩
    have hanti := strcmp_antisymm f1 f2
    have hneg := strcmp_neg_iff f2 f1 h2 h1
    unfold compareFilesByName
    rw [← hneg]
    omega

/-- Claim C9 (witness): the amended comparator characterisation applied to
the concrete NUL-free names "a" and "ab". -/
theorem comparators_amended_witness :
    (∀ c ∈ "a".data, 0 < c.toNat)
    ∧ ((compareFilesByName "a".data "ab".data = 0 ↔ "a".data = "ab".data)
       ∧ (compareFilesByName "a".data "ab".data < 0 ↔ lexLt "a".data "ab".data = true)
       ∧ (0 < compareFilesByName "a".data "ab".data ↔ lexLt "ab".data "a".data = true)) :=
  ⟨by decide, comparators_amended.2.2 "a".data "ab".data (by decide) (by decide)⟩

/-- Outcome of the getEncryptionPasswordFor collaborator (utils/promptUtils.c
is not under src; modelled from the spec): either a password, or prompt
cancellation, on which the collaborator sets the dedicated error and returns
NULL. -/
inductive PromptOutcome where
  | pw (p : List Char)
  | cancelled
deriving DecidableEq

/-- Observable events of an encrypted-write or decrypt call, in call order. -/
inductive Ev where
  | encryptCalled
  | wroteFile (path : List Char)
  | freedPassword
deriving DecidableEq

/-- The function _promptAndCryptAndWriteToAnyFile from
src/src/utils/file_io/promptCryptFileUtils.c (leading underscore dropped).
Collaborators are passed in: encrypt is the symmetric encryption primitive,
promptOutcome the result of getEncryptionPasswordFor (fed with hint,
suggestedPassword and pw_cmd), oidcDir the resolved configuration directory
used by the oidc-filename variant, and writeResult the outcome of the
encrypt-and-write step; encryptAndWriteToFile and encryptAndWriteToOidcFile
are not under src and are modelled from the spec: encrypt the text with the
password and write the ciphertext to the target path, an oidc filename
being qualified against oidcDir. Returns the error outcome, the resulting
file map, and the event trace. -/
def promptAndCryptAndWriteToAnyFile
    (encrypt : List Char → List Char → List Char)
    (text filepath oidc_filename hint suggestedPassword pw_cmd : Option (List Char))
    (promptOutcome : PromptOutcome)
    (oidcDir : List Char)
    (writeResult : OidcErr)
    (files : List (List Char × List Char)) :
    OidcErr × List (List Char × List Char) × List Ev :=
  if text = none ∨ hint = none ∨ (filepath = none ∧ oidc_filename = none) then
    (OidcErr.argNullFunc, files, [])
  else
    match promptOutcome with
    | PromptOutcome.cancelled => (OidcErr.promptCancelled, files, [])
    | PromptOutcome.pw p =>
      let target :=
        match oidc_filename with
        | some fn => oidcDir ++ fn
        | none => filepath.getD []
      let ciphertext := encrypt (text.getD []) p
      match writeResult with
      | OidcErr.success =>
        (OidcErr.success, setFile files target ciphertext,
          [Ev.encryptCalled, Ev.wroteFile target, Ev.freedPassword])
      | e => (e, files, [Ev.encryptCalled, Ev.freedPassword])

/-- promptEncryptAndWriteToFile from
src/src/utils/file_io/promptCryptFileUtils.c: null-check the arguments and
delegate with path addressing. -/
def promptEncryptAndWriteToFile
    (encrypt : List Char → List Char → List Char)
    (text filepath hint suggestedPassword pw_cmd : Option (List Char))
    (promptOutcome : PromptOutcome)
    (oidcDir : List Char)
    (writeResult : OidcErr)
    (files : List (List Char × List Char)) :
    OidcErr × List (List Char × List Char) × List Ev :=
  if text = none ∨ filepath = none ∨ hint = none then
    (OidcErr.argNullFunc, files, [])
  else
    promptAndCryptAndWriteToAnyFile encrypt text filepath none hint
      suggestedPassword pw_cmd promptOutcome oidcDir writeResult files

/-- promptEncryptAndWriteToOidcFile from
src/src/utils/file_io/promptCryptFileUtils.c: null-check the arguments and
delegate with logical-filename addressing. -/
def promptEncryptAndWriteToOidcFile
    (encrypt : List Char → List Char → List Char)
    (text filename hint suggestedPassword pw_cmd : Option (List Char))
    (promptOutcome : PromptOutcome)
    (oidcDir : List Char)
    (writeResult : OidcErr)
    (files : List (List Char × List Char)) :
    OidcErr × List (List Char × List Char) × List Ev :=
  if text = none ∨ filename = none ∨ hint = none then
    (OidcErr.argNullFunc, files, [])
  else
    promptAndCryptAndWriteToAnyFile encrypt text none filename hint
      suggestedPassword pw_cmd promptOutcome oidcDir writeResult files

/-- The paired decrypt result of promptCryptFileUtils.c: the plaintext and
the password used, with ownership of the password transferred to the
caller. -/
structure ResultWithEncryptionPassword where
  result : Option (List Char)
  password : Option (List Char)

/-- getDecryptedFileFor from src/src/utils/file_io/promptCryptFileUtils.c:
obtain the paired result (the inner prompting decryption of cryptFileUtils.c
is not under src; its outcome is the res parameter), securely free the
returned password, and return only the plaintext. The freeing is recorded
as an event when a password is present; secFree of NULL is a no-op. -/
def getDecryptedFileFor (filepath : Option (List Char))
    (res : ResultWithEncryptionPassword) : Option (List Char) × List Ev :=
  if filepath = none then (none, [])
  else
    match res.password with
    | some _ => (res.result, [Ev.freedPassword])
    | none => (res.result, [])

/-- getDecryptedOidcFileFor from
src/src/utils/file_io/promptCryptFileUtils.c, the oidc-filename variant of
getDecryptedFileFor. -/
def getDecryptedOidcFileFor (filename : Option (List Char))
    (res : ResultWithEncryptionPassword) : Option (List Char) × List Ev :=
  if filename = none then (none, [])
  else
    match res.password with
    | some _ => (res.result, [Ev.freedPassword])
    | none => (res.result, [])

/-- Claim C3: with valid non-null arguments, a cancelled password prompt
makes both encrypted-write entry points return the dedicated cancellation
error with the file map unchanged and an empty event trace: nothing was
encrypted and no file was written. -/
theorem prompt_cancellation_aborts_write :
    ∀ (encrypt : List Char → List Char → List Char)
      (t fp fn h : List Char) (sp cmd : Option (List Char))
      (oidcDir : List Char) (writeResult : OidcErr)
      (files : List (List Char × List Char)),
      promptEncryptAndWriteToFile encrypt (some t) (some fp) (some h) sp cmd
          PromptOutcome.cancelled oidcDir writeResult files =
        (OidcErr.promptCancelled, files, [])
      ∧ promptEncryptAndWriteToOidcFile encrypt (some t) (some fn) (some h) sp cmd
          PromptOutcome.cancelled oidcDir writeResult files =
        (OidcErr.promptCancelled, files, []) := by
  intro encrypt t fp fn h sp cmd oidcDir writeResult files
  constructor <;>
    simp [promptEncryptAndWriteToFile, promptEncryptAndWriteToOidcFile,
      promptAndCryptAndWriteToAnyFile]

/-- Claim C4: whenever the prompt produced a password, both encrypted-write
entry points free it before returning, for every outcome of the
encrypt-and-write step; and the non-paired decrypt variants free the
internally obtained password before returning the plaintext unchanged. -/
theorem password_erased_on_exit_paths :
    ∀ (encrypt : List Char → List Char → List Char)
      (t fp fn h p : List Char) (sp cmd : Option (List Char))
      (oidcDir : List Char) (writeResult : OidcErr)
      (files : List (List Char × List Char))
      (r : Option (List Char)) (rp : List Char),
      Ev.freedPassword ∈
        (promptEncryptAndWriteToFile encrypt (some t) (some fp) (some h) sp cmd
          (PromptOutcome.pw p) oidcDir writeResult files).2.2
      ∧ Ev.freedPassword ∈
        (promptEncryptAndWriteToOidcFile encrypt (some t) (some fn) (some h) sp cmd
          (PromptOutcome.pw p) oidcDir writeResult files).2.2
      ∧ getDecryptedFileFor (some fp) ⟨r, some rp⟩ = (r, [Ev.freedPassword])
      ∧ getDecryptedOidcFileFor (some fn) ⟨r, some rp⟩ = (r, [Ev.freedPassword]) := by
  intro encrypt t fp fn h p sp cmd oidcDir writeResult files r rp
  refine ⟨?_, ?_, rfl, rfl⟩ <;>
    cases writeResult <;>
      simp [promptEncryptAndWriteToFile, promptEncryptAndWriteToOidcFile,
        promptAndCryptAndWriteToAnyFile]
